import Mathlib

/-!
Verification of the hydraa compute/heartbeat core.

Shallow embedding of the TypeScript sources:
  skill/src/compute/provider-manager.ts   (ProviderManager)
  skill/src/compute/akash/deployer.ts     (AkashProvider and message builders)
  skill/src/compute/akash/sdl.ts          (generateSDL)
  self-hosted deployer                    (SelfHostedProvider)
  heartbeat monitors/health.ts, monitors/funding.ts, actions/self-heal.ts,
  actions/notify.ts

Async/await code is embedded as explicit state passing; a thrown JS error is
an `Except.error` carrying the message; `try/catch` becomes a `match` on the
`Except` value.  Provider methods are modelled as pure oracles supplied in a
dependency record, mirroring the duck-typed `deps` objects of the source.
Timestamps are `Nat` milliseconds.
-/

set_option maxRecDepth 4000

namespace Hydraa

-- ===========================================================================
-- Data model (skill/src/compute/interface.ts)
-- ===========================================================================

/-- Deployment status enum from interface.ts. -/
inductive DeploymentStatus where
  | pending | deploying | running | stopped | failed | unknown
  deriving DecidableEq, Repr

/-- DeploymentConfig from interface.ts.  `cpu` is modelled as the decimal
string the JS runtime renders for the numeric field (no claim depends on
float semantics); `env` is an insertion-ordered association list, matching
`Object.entries` enumeration order. -/
structure DeploymentConfig where
  image : String
  cpu : String
  memory : String
  storage : String
  env : List (String × String)
  ports : List Nat
  persistentStorage : Option (String × String)  -- (size, mountPath)
  deriving DecidableEq, Repr

/-- Deployment from interface.ts; `createdAt` is a millisecond timestamp and
`metadata` the string-map modelled as an association list. -/
structure Deployment where
  id : String
  provider : String
  status : DeploymentStatus
  createdAt : Nat
  config : DeploymentConfig
  metadata : List (String × String)
  deriving DecidableEq, Repr

/-- JS `metadata[key]` lookup (first binding wins, like a JS object where each
key is written at most once; our writers never duplicate keys). -/
def mdLookup (md : List (String × String)) (key : String) : Option String :=
  (md.find? (fun kv => kv.1 == key)).map (·.2)

-- ===========================================================================
-- ProviderManager (skill/src/compute/provider-manager.ts)
-- ===========================================================================

/-- The slice of the ComputeProvider interface the ProviderManager uses in
deploy/failover.  `deploy` and `destroy` are pure oracles for the async
methods: `.error` is a thrown JS error. -/
structure Provider where
  name : String
  deploy : DeploymentConfig → Except String Deployment
  destroy : Deployment → Except String Unit

/-- Mutable fields of a ProviderManager instance.  `providers` is the list
already sorted by ascending priority (the constructor sorts it). -/
structure PM where
  providers : List Provider
  activeIndex : Nat
  currentDeployment : Option Deployment

/-- The recorded message for a provider attempt that is treated as a failure:
the thrown error message, or `metadata.error` (default text) for a returned
deployment with status failed. -/
def failedStatusMsg (d : Deployment) : String :=
  (mdLookup d.metadata "error").getD "Deployment returned failed status"

/-- One provider attempt inside the deploy/failover loops: `.error msg` when
the attempt is recorded as a failure (thrown, or returned status failed),
`.ok d` when it succeeds. -/
def attemptDeploy (p : Provider) (config : DeploymentConfig) :
    Except String Deployment :=
  match p.deploy config with
  | .error e => .error e
  | .ok d => if d.status = .failed then .error (failedStatusMsg d) else .ok d

/-- The loop body of `ProviderManager.deploy`: walk the provider list from
index `i`, tracking `lastError`; return the successful index and deployment,
or the final `lastError` when exhausted. -/
def pmDeployGo (config : DeploymentConfig) :
    List Provider → Nat → Option String → Except (Option String) (Nat × Deployment)
  | [], _, lastError => .error lastError
  | p :: rest, i, lastError =>
    match attemptDeploy p config with
    | .error e => pmDeployGo config rest (i + 1) (some e)
    | .ok d => .ok (i, d)

/-- `ProviderManager.deploy(config)`: first success records the active index
and deployment; exhaustion throws the aggregate error and leaves the state
untouched. -/
def pmDeploy (m : PM) (config : DeploymentConfig) : PM × Except String Deployment :=
  match pmDeployGo config m.providers 0 none with
  | .ok (i, d) =>
    ({ m with activeIndex := i, currentDeployment := some d }, .ok d)
  | .error lastError =>
    (m, .error ("All providers failed to deploy. Last error: " ++ lastError.getD "unknown"))

/-- Candidate offsets tried by `failover`: `for (offset = 1; offset < n; offset++)`. -/
def failoverOffsets (n : Nat) : List Nat := List.range' 1 (n - 1)

/-- Candidate indices tried by `failover`, in order: `(activeIndex + offset) % n`. -/
def failoverCandidates (m : PM) : List Nat :=
  (failoverOffsets m.providers.length).map
    (fun offset => (m.activeIndex + offset) % m.providers.length)

/-- Result of a `failover()` call: final manager state, the emitted
`failover` event (from-name, to-name) if any, the call result, and the
outcome of the best-effort destroy (recorded, never inspected). -/
structure FailoverOut where
  state : PM
  event : Option (String × String)
  result : Except String Deployment
  destroyResult : Option (Except String Unit)

/-- The loop body of `ProviderManager.failover`: try each candidate index in
turn with the original config. -/
def pmFailoverGo (m : PM) (config : DeploymentConfig) (prevName : String) :
    List Nat → Option String → PM × Option (String × String) × Except String Deployment
  | [], lastError =>
    (m, none, .error ("Failover exhausted all providers. Last error: " ++ lastError.getD "unknown"))
  | idx :: rest, lastError =>
    match m.providers[idx]? with
    | none => (m, none, .error "index out of range")  -- unreachable: idx < providers.length
    | some p =>
      match attemptDeploy p config with
      | .error e => pmFailoverGo m config prevName rest (some e)
      | .ok d =>
        ({ m with activeIndex := idx, currentDeployment := some d },
         some (prevName, p.name), .ok d)

/-- `ProviderManager.failover()`: read the previous provider name and the
original config, best-effort destroy the current deployment (result recorded
but ignored), then try each provider after the current index, wrapping. -/
def pmFailover (m : PM) : FailoverOut :=
  match m.providers[m.activeIndex]? with
  | none =>
    { state := m, event := none, result := .error "index out of range", destroyResult := none }
  | some current =>
    match m.currentDeployment with
    | none =>
      { state := m, event := none
        result := .error "Cannot failover: no deployment config available"
        destroyResult := none }
    | some dep =>
      let destroyed := current.destroy dep
      let (state, event, result) :=
        pmFailoverGo m dep.config current.name (failoverCandidates m) none
      { state := state, event := event, result := result, destroyResult := some destroyed }

/-- Replace the destroy method of provider `i`, keeping name and deploy. -/
def setDestroy (m : PM) (i : Nat) (g : Deployment → Except String Unit) : PM :=
  { m with providers := m.providers.modify (fun p => { p with destroy := g }) i }

-- ===========================================================================
-- Akash SDL generation (skill/src/compute/akash/sdl.ts)
-- ===========================================================================

/-- Lowercase hex digit, as JSON.stringify renders control-character escapes. -/
def hexDigitChar (n : Nat) : Char :=
  if n < 10 then Char.ofNat (48 + n) else Char.ofNat (87 + n)

/-- Escape of one character inside a JSON.stringify string literal. -/
def jsonEscapeChar (c : Char) : String :=
  if c = '"' then "\\\""
  else if c = '\\' then "\\\\"
  else if c = '\x08' then "\\b"
  else if c = '\x0c' then "\\f"
  else if c = '\n' then "\\n"
  else if c = '\r' then "\\r"
  else if c = '\t' then "\\t"
  else if c.toNat < 32 then
    "\\u00" ++ String.singleton (hexDigitChar (c.toNat / 16))
      ++ String.singleton (hexDigitChar (c.toNat % 16))
  else String.singleton c

/-- JSON.stringify applied to a string. -/
def jsonQuote (s : String) : String :=
  "\"" ++ String.join (s.data.map jsonEscapeChar) ++ "\""

/-- A JS number is falsy exactly when it is 0, -0 or NaN; on the decimal
rendering we model this as the strings "0" and "NaN". -/
def numFalsy (s : String) : Bool := s == "0" || s == "NaN"

/-- generateSDL from sdl.ts, reproduced interpolation by interpolation
(normalizeMemory is the identity in the source).  The unused local
`persistentStorageMount` of the source is omitted: it never reaches the
template. -/
def generateSDL (config : DeploymentConfig) : String :=
  let cpu := if numFalsy config.cpu then "0.5" else config.cpu
  let memory := if config.memory = "" then "512Mi" else config.memory
  let storage := if config.storage = "" then "1Gi" else config.storage
  let ports := config.ports
  let envLines := String.intercalate "\n"
    (config.env.map (fun kv => "          - " ++ jsonQuote kv.1 ++ "=" ++ jsonQuote kv.2))
  let exposeBlock :=
    if ports.length > 0 then
      "    expose:\n" ++ String.intercalate "\n"
        (ports.map (fun p =>
          "    - port: " ++ toString p ++ "\n      to:\n        - global: true")) ++ "\n"
    else "    expose: []\n"
  let persistentStorageProfile :=
    match config.persistentStorage with
    | some (size, _) =>
      "\n      data:\n        size: " ++ size ++
      "\n        attributes:\n          persistent: true\n          class: beta3"
    | none => ""
  let persistentStorageParam :=
    match config.persistentStorage with
    | some (_, mountPath) =>
      "\n        storage:\n          data:\n            mount: " ++ mountPath ++
      "\n            readOnly: false"
    | none => ""
  "---\nversion: \"2.0\"\nservices:\n  agent:\n    image: " ++ config.image ++
  "\n    " ++ (if envLines ≠ "" then "env:\n" ++ envLines else "") ++
  "\n" ++ exposeBlock ++ "    params:" ++
  (if persistentStorageParam ≠ "" then persistentStorageParam else "\n      \x7b\x7d") ++
  "\nprofiles:\n  compute:\n    agent:\n      resources:\n        cpu:\n          units: " ++
  cpu ++ "\n        memory:\n          size: " ++ memory ++
  "\n        storage:\n          - size: " ++ storage ++ persistentStorageProfile ++
  "\n  placement:\n    dcloud:\n      pricing:\n        agent:\n          denom: uakt\n          amount: 10000\ndeployment:\n  agent:\n    dcloud:\n      profile: agent\n      count: 1\n"

-- ===========================================================================
-- Akash provider (skill/src/compute/akash/deployer.ts)
-- ===========================================================================

/-- Bid record built by `fetchBids`. -/
structure Bid where
  provider : String
  gseq : String
  oseq : String
  price : Nat
  providerUri : Option String
  deriving DecidableEq, Repr

/-- Stable insertion of a bid into a price-sorted list: a later element goes
after all equal-priced earlier ones.  Together with `sortBids` this models
`Array.prototype.sort` with comparator `(a, b) => a.price - b.price`, which
ECMAScript requires to be a stable sort. -/
def insertBid (x : Bid) : List Bid → List Bid
  | [] => [x]
  | y :: ys => if x.price ≤ y.price then x :: y :: ys else y :: insertBid x ys

/-- Stable sort of bids by ascending price (model of the JS sort call). -/
def sortBids : List Bid → List Bid
  | [] => []
  | x :: xs => insertBid x (sortBids xs)

/-- The selection `waitForBids` performs once a non-empty bid list arrives:
sort ascending by price, take index 0. -/
def selectBid (bids : List Bid) : Option Bid := (sortBids bids).head?

/-- One entry of the LCD `bids/list` JSON response, with every field
optional exactly as the source types it. -/
structure RawBid where
  provider : Option String
  gseq : Option String
  oseq : Option String
  priceAmount : Option String
  state : Option String
  deriving DecidableEq, Repr

/-- `parseInt(s, 10)` on the non-negative integer strings the LCD returns:
value of the longest digit prefix.  (A string with no digit prefix gives
NaN in JS; modelled as 0 — no bid amount exercises this.) -/
def jsParseInt (s : String) : Nat :=
  go s.data 0
where
  go : List Char → Nat → Nat
    | [], acc => acc
    | c :: cs, acc => if c.isDigit then go cs (acc * 10 + (c.toNat - 48)) else acc

/-- Post-processing of one poll in `fetchBids`: a network/HTTP error (the
catch branch and the `!res.ok` branch) yields `[]`; otherwise keep the open
bids and fill defaults. -/
def fetchBidsModel (resp : Except String (List RawBid)) : List Bid :=
  match resp with
  | .error _ => []
  | .ok raws =>
    (raws.filter (fun b => b.state == some "open")).map (fun b =>
      { provider := b.provider.getD ""
        gseq := b.gseq.getD "1"
        oseq := b.oseq.getD "1"
        price := jsParseInt (b.priceAmount.getD "0")
        providerUri := none })

/-- The `waitForBids` polling loop over the finite sequence of fetch results
that occur before the deadline: first poll with a non-empty open-bid list
wins; exhausting the window returns null. -/
def waitForBidsModel : List (Except String (List RawBid)) → Option Bid
  | [] => none
  | p :: rest =>
    let bids := fetchBidsModel p
    if bids.isEmpty then waitForBidsModel rest else selectBid bids

/-- Cosmos messages produced by the builder functions of deployer.ts. -/
inductive AkashMsg where
  | createDeployment (owner dseq : String) (version : List Nat)
      (depositor depositDenom depositAmount : String)
  | createLease (owner dseq gseq oseq provider : String)
  | closeLease (owner dseq gseq oseq provider : String)
  | closeDeployment (owner dseq : String)
  deriving DecidableEq, Repr

/-- Transaction fee, as built by `defaultFee()`. -/
structure Fee where
  denom : String
  amount : String
  gas : String
  deriving DecidableEq, Repr

def defaultFee : Fee := { denom := "uakt", amount := "5000", gas := "300000" }

/-- buildCreateDeploymentMsg: note the version field is the constant
`new Uint8Array(32)` (32 zero bytes); the `_sdl` argument is unused in the
source. -/
def buildCreateDeploymentMsg (owner dseq : String) (_sdl : String) : AkashMsg :=
  .createDeployment owner dseq (List.replicate 32 0) owner "uakt" "5000000"

def buildCreateLeaseMsg (owner dseq provider gseq oseq : String) : AkashMsg :=
  .createLease owner dseq gseq oseq provider

def buildCloseLeaseMsg (owner dseq provider gseq oseq : String) : AkashMsg :=
  .closeLease owner dseq gseq oseq provider

def buildCloseDeploymentMsg (owner dseq : String) : AkashMsg :=
  .closeDeployment owner dseq

/-- The version bytes of a deployment-creation message. -/
def msgVersion : AkashMsg → Option (List Nat)
  | .createDeployment _ _ v _ _ _ => some v
  | _ => none

/-- `sendManifest`: returns immediately on an empty provider URI (always the
case here, since `fetchBids` leaves providerUri undefined); otherwise the
PUT result decides success. -/
def sendManifestModel (providerUri : String) (push : Except String Unit) :
    Except String Unit :=
  if providerUri = "" then .ok () else push

/-- External world of one `AkashProvider.deploy` call: wallet address, the
clock at entry (`Date.now()`, used as the dseq), the chain broadcast oracle,
the bid polls that happen inside the wait window, and the manifest PUT
outcome. -/
structure AkashEnv where
  address : String
  nowMs : Nat
  broadcast : List AkashMsg → Fee → Except String String
  polls : List (Except String (List RawBid))
  manifestPush : Except String Unit

/-- `AkashProvider.deploy(config)`.  A thrown error anywhere is `.error`;
the no-bid outcome is a normally returned deployment with status failed and
an error message in metadata. -/
def akashDeploy (env : AkashEnv) (config : DeploymentConfig) :
    Except String Deployment :=
  let sdl := generateSDL config
  let dseq := toString env.nowMs
  match env.broadcast [buildCreateDeploymentMsg env.address dseq sdl] defaultFee with
  | .error e => .error e
  | .ok txHash =>
    let base : Deployment :=
      { id := env.address ++ "/" ++ dseq
        provider := "akash"
        status := .deploying
        createdAt := env.nowMs
        config := config
        metadata := [("dseq", dseq), ("txHash", txHash), ("sdl", sdl), ("owner", env.address)] }
    match waitForBidsModel env.polls with
    | none =>
      .ok { base with
        status := .failed
        metadata := base.metadata ++ [("error", "No bids received within timeout")] }
    | some bid =>
      match env.broadcast
          [buildCreateLeaseMsg env.address dseq bid.provider bid.gseq bid.oseq] defaultFee with
      | .error e => .error e
      | .ok leaseTxHash =>
        let md := base.metadata ++
          [("leaseTxHash", leaseTxHash), ("providerAddress", bid.provider),
           ("providerUri", bid.providerUri.getD ""), ("gseq", bid.gseq), ("oseq", bid.oseq)]
        match sendManifestModel (bid.providerUri.getD "") env.manifestPush with
        | .error e => .error e
        | .ok _ => .ok { base with status := .running, metadata := md }

/-- `AkashProvider.destroy(deployment)`: returns the trace of broadcast
calls made (each a message list as passed to signAndBroadcast) together with
the call result.  Note the source wraps neither broadcast in try/catch. -/
def akashDestroy (broadcast : List AkashMsg → Fee → Except String String)
    (address : String) (d : Deployment) :
    List (List AkashMsg) × Except String Unit :=
  match mdLookup d.metadata "dseq" with
  | none => ([], .error "Missing dseq in deployment metadata")
  | some dseq =>
    if dseq = "" then ([], .error "Missing dseq in deployment metadata")
    else
      let gseq := (mdLookup d.metadata "gseq").getD "1"
      let oseq := (mdLookup d.metadata "oseq").getD "1"
      let closeDep := buildCloseDeploymentMsg address dseq
      match mdLookup d.metadata "providerAddress" with
      | some pa =>
        if pa = "" then
          match broadcast [closeDep] defaultFee with
          | .error e => ([[closeDep]], .error e)
          | .ok _ => ([[closeDep]], .ok ())
        else
          let closeLease := buildCloseLeaseMsg address dseq pa gseq oseq
          match broadcast [closeLease] defaultFee with
          | .error e => ([[closeLease]], .error e)
          | .ok _ =>
            match broadcast [closeDep] defaultFee with
            | .error e => ([[closeLease], [closeDep]], .error e)
            | .ok _ => ([[closeLease], [closeDep]], .ok ())
      | none =>
        match broadcast [closeDep] defaultFee with
        | .error e => ([[closeDep]], .error e)
        | .ok _ => ([[closeDep]], .ok ())

-- ===========================================================================
-- Self-hosted provider destroy (self-hosted/deployer.ts)
-- ===========================================================================

/-- `SelfHostedProvider.destroy(deployment)`, parametric over the SSH `exec`
oracle.  `exec` resolves with stdout on remote exit code 0 and rejects
otherwise (deployer.ts, exec close handler); destroy propagates that result
unwrapped. -/
def selfHostedDestroy (execO : String → Except String String) (d : Deployment) :
    Except String Unit :=
  match mdLookup d.metadata "containerName" with
  | none => .ok ()
  | some n =>
    if n = "" then .ok ()
    else (execO ("docker stop " ++ n ++ " && docker rm " ++ n)).map (fun _ => ())

/-- Exec oracle of a host on which the named container is absent: both
`docker stop` and `docker rm` exit nonzero there, so the compound command
exits nonzero and `exec` rejects (deployer.ts rejects on any nonzero exit
code). -/
def absentContainerExec : String → Except String String :=
  fun _ => .error "SSH command exited with code 1: Error: No such container"

-- ===========================================================================
-- Notifier (heartbeat/actions/notify.ts)
-- ===========================================================================

inductive Priority where
  | low | normal | high
  deriving DecidableEq, Repr

/-- The `lastSent` record of `createNotifier`, both entries initialised to 0. -/
structure NotifierState where
  lastLow : Nat
  lastNormal : Nat
  deriving DecidableEq, Repr

def initNotifierState : NotifierState := { lastLow := 0, lastNormal := 0 }

def lowCooldownMs : Nat := 5 * 60 * 1000

def normalCooldownMs : Nat := 60 * 1000

/-- One `notify(message, priority)` call at clock `now`: the returned Bool is
true when the message passes the rate gate and a delivery is attempted (the
send itself catches its own errors), false when the call is suppressed.  For
`high` the cooldown lookup is undefined, so the gate is skipped entirely. -/
def notifyStep (s : NotifierState) (now : Nat) (p : Priority) : NotifierState × Bool :=
  match p with
  | .low =>
    if now - s.lastLow < lowCooldownMs then (s, false)
    else ({ s with lastLow := now }, true)
  | .normal =>
    if now - s.lastNormal < normalCooldownMs then (s, false)
    else ({ s with lastNormal := now }, true)
  | .high => (s, true)

/-- A sequence of notify calls, returning the final state and how many were
delivered. -/
def notifyRun (s : NotifierState) : List (Nat × Priority) → NotifierState × Nat
  | [] => (s, 0)
  | (t, p) :: rest =>
    let step := notifyStep s t p
    let tail := notifyRun step.1 rest
    (tail.1, (if step.2 then 1 else 0) + tail.2)

-- ===========================================================================
-- Health monitor (heartbeat/monitors/health.ts)
-- ===========================================================================

structure HealthCheckRes where
  healthy : Bool
  message : Option String
  deriving DecidableEq, Repr

/-- The slice of a provider object the health monitor uses. -/
structure HMProvider where
  healthCheck : Deployment → Except String HealthCheckRes

/-- Duck-typed deps of `createHealthMonitor`; the two providerManager
methods are oracles that may throw. -/
structure HealthDeps where
  getPrimaryProvider : Except String (Option HMProvider)
  getActiveDeployment : Except String (Option Deployment)
  maxFailures : Nat

/-- Observable outcome of one health-monitor tick. -/
structure MonitorTickOut where
  result : Except String Unit
  probes : Nat
  failures : Nat
  healCalls : Nat
  deriving Repr

/-- One tick of the health monitor, from consecutive-failure count
`failures`.  An error from either manager method is uncaught: the async tick
rejects before any probe. -/
def healthTick (deps : HealthDeps) (failures : Nat) : MonitorTickOut :=
  match deps.getPrimaryProvider with
  | .error e => { result := .error e, probes := 0, failures := failures, healCalls := 0 }
  | .ok providerO =>
    match deps.getActiveDeployment with
    | .error e => { result := .error e, probes := 0, failures := failures, healCalls := 0 }
    | .ok depO =>
      match providerO, depO with
      | some provider, some dep =>
        match provider.healthCheck dep with
        | .error e => { result := .error e, probes := 1, failures := failures, healCalls := 0 }
        | .ok r =>
          if r.healthy then { result := .ok (), probes := 1, failures := 0, healCalls := 0 }
          else if failures + 1 ≥ deps.maxFailures then
            { result := .ok (), probes := 1, failures := 0, healCalls := 1 }
          else
            { result := .ok (), probes := 1, failures := failures + 1, healCalls := 0 }
      | _, _ => { result := .ok (), probes := 0, failures := failures, healCalls := 0 }

-- ===========================================================================
-- Funding monitor (heartbeat/monitors/funding.ts)
-- ===========================================================================

structure Balance where
  amount : Int
  denom : String
  deriving DecidableEq, Repr

structure FundProvider where
  getBalance : Except String Balance

structure FundingDeps where
  getPrimaryProvider : Except String (Option FundProvider)
  threshold : Int

structure FundingTickOut where
  result : Except String Unit
  balanceReads : Nat
  notifs : List (String × Priority)
  deriving Repr

/-- One tick of the funding monitor.  An error from getPrimaryProvider is
uncaught: the tick rejects before any balance read. -/
def fundingTick (deps : FundingDeps) : FundingTickOut :=
  match deps.getPrimaryProvider with
  | .error e => { result := .error e, balanceReads := 0, notifs := [] }
  | .ok none => { result := .ok (), balanceReads := 0, notifs := [] }
  | .ok (some p) =>
    match p.getBalance with
    | .error e => { result := .error e, balanceReads := 1, notifs := [] }
    | .ok b =>
      if b.amount < deps.threshold then
        { result := .ok ()
          balanceReads := 1
          notifs := [("Low AKT balance: " ++ toString b.amount ++ " " ++ b.denom ++
            " (threshold: " ++ toString deps.threshold ++
            "). Top up soon to avoid compute interruption.", .high)] }
      else { result := .ok (), balanceReads := 1, notifs := [] }

-- ===========================================================================
-- Self-healer (heartbeat/actions/self-heal.ts)
-- ===========================================================================

/-- Duck-typed deps of `createSelfHealer`; the providerManager methods are
oracles that may throw, providers are the deploy-capable objects they
return. -/
structure HealDeps where
  getPrimaryProvider : Except String (Option Provider)
  getLastDeploymentConfig : Except String (Option DeploymentConfig)
  getAllProviders : Except String (List Provider)
  syncFromRelays : Except String Unit
  maxRetries : Nat

/-- Observable outcome of one `heal()` call.  `heal` itself never rejects:
every providerManager/provider call sits inside a try/catch and the notifier
swallows its own send errors. -/
structure HealOut where
  retryCount : Nat
  deployAttempts : Nat
  notifs : List (String × Priority)
  deriving DecidableEq, Repr

def exhaustedMsg (maxRetries : Nat) : String :=
  "Self-heal failed after " ++ toString maxRetries ++ " attempts. Manual intervention required."

def healedPrimaryMsg (name id : String) : String :=
  "Self-healed: redeployed on " ++ name ++ " (" ++ id ++ ")."

def healedFailoverMsg (name id : String) : String :=
  "Self-healed via failover to " ++ name ++ " (" ++ id ++ ")."

def attemptFailedMsg (rc maxRetries : Nat) : String :=
  "Self-heal attempt " ++ toString rc ++ "/" ++ toString maxRetries ++ " failed on all providers."

/-- The failover loop of `heal`: per provider, re-read the config (a throw
or null config skips the provider via the inner catch/continue), deploy,
stop at first success.  Returns the success notification message, if any,
and the number of deploy calls made. -/
def healLoop (deps : HealDeps) : List Provider → Option String × Nat
  | [] => (none, 0)
  | p :: ps =>
    match deps.getLastDeploymentConfig with
    | .error _ => healLoop deps ps
    | .ok none => healLoop deps ps
    | .ok (some config) =>
      match p.deploy config with
      | .ok d => (some (healedFailoverMsg p.name d.id), 1)
      | .error _ =>
        let rest := healLoop deps ps
        (rest.1, rest.2 + 1)

/-- The continuation of `heal` after the primary-provider attempt (the
second try/catch and the final high-priority notification of
self-heal.ts); `rc` is the already-incremented retry count and `attempts`
the deploy calls made so far. -/
def healStep2 (deps : HealDeps) (rc attempts : Nat) : HealOut :=
  match deps.getAllProviders with
  | .error _ =>
    { retryCount := rc, deployAttempts := attempts
      notifs := [(attemptFailedMsg rc deps.maxRetries, .high)] }
  | .ok ps =>
    match healLoop deps ps with
    | (some msg, n) =>
      let _ := deps.syncFromRelays
      { retryCount := 0, deployAttempts := attempts + n, notifs := [(msg, .normal)] }
    | (none, n) =>
      { retryCount := rc, deployAttempts := attempts + n
        notifs := [(attemptFailedMsg rc deps.maxRetries, .high)] }

/-- `heal()` from retry count `retryCount`.  Mirrors self-heal.ts: the
exhaustion short-circuit, the primary-provider attempt (whole block in a
try/catch; null provider or null config falls through to failover), then
`healStep2`.  A successful redeploy syncs memory (result swallowed) and
resets the count. -/
def heal (deps : HealDeps) (retryCount : Nat) : HealOut :=
  if retryCount ≥ deps.maxRetries then
    { retryCount := retryCount, deployAttempts := 0
      notifs := [(exhaustedMsg deps.maxRetries, .high)] }
  else
    let rc := retryCount + 1
    match deps.getPrimaryProvider with
    | .error _ => healStep2 deps rc 0
    | .ok none => healStep2 deps rc 0
    | .ok (some p) =>
      match deps.getLastDeploymentConfig with
      | .error _ => healStep2 deps rc 0
      | .ok none => healStep2 deps rc 0
      | .ok (some config) =>
        match p.deploy config with
        | .error _ => healStep2 deps rc 1
        | .ok d =>
          let _ := deps.syncFromRelays
          { retryCount := 0, deployAttempts := 1
            notifs := [(healedPrimaryMsg p.name d.id, .normal)] }

/-- `n` successive `heal()` calls threading the captured retry count. -/
def healRun (deps : HealDeps) : Nat → Nat → List HealOut
  | _, 0 => []
  | rc, n + 1 =>
    let out := heal deps rc
    out :: healRun deps out.retryCount n

/-- Number of max-retries-exhausted notifications across a run. -/
def countExhausted (maxRetries : Nat) (outs : List HealOut) : Nat :=
  (outs.map (fun o => (o.notifs.filter (fun nf => nf.1 == exhaustedMsg maxRetries)).length)).sum

/-- Total deploy attempts across a run. -/
def totalAttempts (outs : List HealOut) : Nat :=
  (outs.map (fun o => o.deployAttempts)).sum

-- ===========================================================================
-- Wiring monitors to the real ProviderManager (C5)
-- ===========================================================================

/-- Method names defined on the ProviderManager class
(provider-manager.ts class body; constructor excluded).  The names inherited
from EventEmitter (on, emit, once, ...) are omitted: none of them collide
with the four names the monitors call. -/
def providerManagerMethods : List String :=
  ["getCurrentProvider", "getDeployment", "deploy", "getStatus",
   "healthCheck", "failover", "destroy"]

/-- JS method dispatch on a providerManager object: calling a name the
object does not define reads `undefined` and invoking it throws a
TypeError, whatever the method would have returned had it existed. -/
def methodOracle (methods : List String) (name : String)
    (impl : Except String α) : Except String α :=
  if name ∈ methods then impl
  else .error ("providerManager." ++ name ++ " is not a function")

/-- Health-monitor deps as `createHeartbeat` wires them: the providerManager
instance itself, dispatched by method name. -/
def wiredHealthDeps (primaryImpl : Except String (Option HMProvider))
    (activeImpl : Except String (Option Deployment)) (maxFailures : Nat) : HealthDeps :=
  { getPrimaryProvider := methodOracle providerManagerMethods "getPrimaryProvider" primaryImpl
    getActiveDeployment := methodOracle providerManagerMethods "getActiveDeployment" activeImpl
    maxFailures := maxFailures }

/-- Funding-monitor deps as `createHeartbeat` wires them. -/
def wiredFundingDeps (primaryImpl : Except String (Option FundProvider))
    (threshold : Int) : FundingDeps :=
  { getPrimaryProvider := methodOracle providerManagerMethods "getPrimaryProvider" primaryImpl
    threshold := threshold }

/-- Self-healer deps as `createHeartbeat` wires them. -/
def wiredHealDeps (primaryImpl : Except String (Option Provider))
    (configImpl : Except String (Option DeploymentConfig))
    (allImpl : Except String (List Provider))
    (syncO : Except String Unit) (maxRetries : Nat) : HealDeps :=
  { getPrimaryProvider := methodOracle providerManagerMethods "getPrimaryProvider" primaryImpl
    getLastDeploymentConfig :=
      methodOracle providerManagerMethods "getLastDeploymentConfig" configImpl
    getAllProviders := methodOracle providerManagerMethods "getAllProviders" allImpl
    syncFromRelays := syncO
    maxRetries := maxRetries }

-- ===========================================================================
-- Concrete fixtures used by witnesses and counterexamples
-- ===========================================================================

/-- A small config (the end-to-end scenario of spec section 8). -/
def cfgFix : DeploymentConfig :=
  { image := "img:v1", cpu := "0.5", memory := "512Mi", storage := "1Gi"
    env := [], ports := [], persistentStorage := none }

/-- Same config with a different image, for the version-hash counterexample. -/
def cfgFix2 : DeploymentConfig := { cfgFix with image := "img:v2" }

def bidFix (price : Nat) (provider : String) : Bid :=
  { provider := provider, gseq := "1", oseq := "1", price := price, providerUri := none }

/-- A provider whose deploy always throws. -/
def failingProv (nm : String) : Provider :=
  { name := nm, deploy := fun _ => .error ("provider " ++ nm ++ " offline")
    destroy := fun _ => .ok () }

/-- A provider whose deploy always succeeds with a running deployment. -/
def okProv (nm : String) : Provider :=
  { name := nm
    deploy := fun c =>
      .ok { id := nm ++ "-dep", provider := nm, status := .running, createdAt := 0
            config := c, metadata := [] }
    destroy := fun _ => .ok () }

/-- The deployment okProv nm returns for config c. -/
def okDep (nm : String) (c : DeploymentConfig) : Deployment :=
  { id := nm ++ "-dep", provider := nm, status := .running, createdAt := 0
    config := c, metadata := [] }

/-- A deployment carrying Akash metadata, as left by a successful deploy. -/
def akashDepFix : Deployment :=
  { id := "akash1owner/100", provider := "akash", status := .running, createdAt := 0
    config := cfgFix
    metadata := [("dseq", "100"), ("providerAddress", "akash1prov")] }

/-- Broadcast oracle whose lease-close transaction is rejected and whose
other transactions succeed. -/
def leaseCloseFails : List AkashMsg → Fee → Except String String :=
  fun msgs _ =>
    match msgs with
    | [AkashMsg.closeLease _ _ _ _ _] => .error "lease close rejected"
    | _ => .ok "HASH"

/-- Self-healer deps where every provider deploy fails, max 2 retries. -/
def healDepsFix : HealDeps :=
  { getPrimaryProvider := .ok (some (failingProv "a"))
    getLastDeploymentConfig := .ok (some cfgFix)
    getAllProviders := .ok [failingProv "a", failingProv "b"]
    syncFromRelays := .ok ()
    maxRetries := 2 }

/-- A deployment naming a self-hosted container. -/
def selfHostedDepFix : Deployment :=
  { id := "hydraa-agent-1", provider := "self-hosted", status := .running, createdAt := 0
    config := cfgFix, metadata := [("containerName", "hydraa-agent-1"), ("host", "h")] }

-- ===========================================================================
-- Theorems
-- ===========================================================================

-- Helper lemmas for the ProviderManager deploy loop.

lemma pmDeployGo_ok (config : DeploymentConfig) :
    ∀ (ps : List Provider) (i0 : Nat) (le : Option String) (k : Nat) (hk : k < ps.length)
      (d : Deployment),
      (∀ j (hj : j < k), ∃ e, attemptDeploy (ps.get ⟨j, lt_trans hj hk⟩) config = .error e) →
      attemptDeploy (ps.get ⟨k, hk⟩) config = .ok d →
      pmDeployGo config ps i0 le = .ok (i0 + k, d) := by
  intro ps
  induction ps with
  | nil => intro i0 le k hk; exact absurd hk (by simp)
  | cons p rest ih =>
    intro i0 le k hk d hfail hok
    cases k with
    | zero =>
      simp only [List.get] at hok
      simp [pmDeployGo, hok]
    | succ k' =>
      obtain ⟨e, he⟩ := by simpa using hfail 0 (Nat.succ_pos k')
      have hk' : k' < rest.length := Nat.lt_of_succ_lt_succ hk
      have hrec := ih (i0 + 1) (some e) k' hk' d
        (fun j hj => by simpa using hfail (j + 1) (Nat.succ_lt_succ hj))
        (by simpa using hok)
      have harith : i0 + 1 + k' = i0 + (k' + 1) := by omega
      simp only [pmDeployGo, he, hrec, harith]

lemma pmDeployGo_exhaust (config : DeploymentConfig) :
    ∀ (ps : List Provider) (i0 : Nat) (le : Option String) (hne : ps ≠ []),
      (∀ p ∈ ps, ∃ e, attemptDeploy p config = .error e) →
      ∃ e, attemptDeploy (ps.getLast hne) config = .error e ∧
        pmDeployGo config ps i0 le = .error (some e) := by
  intro ps
  induction ps with
  | nil => intro i0 le hne; exact absurd rfl hne
  | cons p rest ih =>
    intro i0 le hne hall
    obtain ⟨e0, he0⟩ := hall p (List.mem_cons_self p rest)
    cases rest with
    | nil =>
      refine ⟨e0, ?_, ?_⟩
      · simpa using he0
      · simp [pmDeployGo, he0]
    | cons q rest' =>
      obtain ⟨e, hel, hgo⟩ := ih (i0 + 1) (some e0) (by simp)
        (fun p' hp' => hall p' (List.mem_cons_of_mem _ hp'))
      refine ⟨e, ?_, ?_⟩
      · rw [List.getLast_cons (by simp)]
        exact hel
      · simp only [pmDeployGo, he0]
        exact hgo

/-- C1: ProviderManager.deploy walks the priority-sorted provider list: a
returned failed-status deployment is recorded like a thrown error; the first
provider whose deploy succeeds becomes the active index with its deployment
recorded and returned; if every provider fails, deploy throws the aggregate
error carrying the last failure message and leaves the state unchanged. -/
theorem c1_deploy_first_success (m : PM) (config : DeploymentConfig)
    (hne : m.providers ≠ []) :
    (∀ p d, p.deploy config = .ok d → d.status = .failed →
      attemptDeploy p config = .error (failedStatusMsg d)) ∧
    (∀ (k : Nat) (hk : k < m.providers.length) (d : Deployment),
      (∀ j (hj : j < k),
        ∃ e, attemptDeploy (m.providers.get ⟨j, lt_trans hj hk⟩) config = .error e) →
      attemptDeploy (m.providers.get ⟨k, hk⟩) config = .ok d →
      pmDeploy m config =
        ({ m with activeIndex := k, currentDeployment := some d }, .ok d)) ∧
    ((∀ p ∈ m.providers, ∃ e, attemptDeploy p config = .error e) →
      ∃ e, attemptDeploy (m.providers.getLast hne) config = .error e ∧
        pmDeploy m config =
          (m, .error ("All providers failed to deploy. Last error: " ++ e))) := by
  refine ⟨?_, ?_, ?_⟩
  · intro p d hok hfl
    simp [attemptDeploy, hok, hfl]
  · intro k hk d hfails hok
    have hgo := pmDeployGo_ok config m.providers 0 none k hk d hfails hok
    simp [pmDeploy, hgo]
  · intro hall
    obtain ⟨e, he, hgo⟩ := pmDeployGo_exhaust config m.providers 0 none hne hall
    exact ⟨e, he, by simp [pmDeploy, hgo]⟩

/-- C1 witness: two providers, the first always failing, the second
succeeding; deploy returns the second deployment and sets active index 1. -/
theorem c1_deploy_first_success_witness :
    pmDeploy
      { providers := [failingProv "a", okProv "b"], activeIndex := 0, currentDeployment := none }
      cfgFix =
      ({ providers := [failingProv "a", okProv "b"], activeIndex := 1
         currentDeployment := some (okDep "b" cfgFix) },
       .ok (okDep "b" cfgFix)) :=
  (c1_deploy_first_success
    { providers := [failingProv "a", okProv "b"], activeIndex := 0, currentDeployment := none }
    cfgFix (by simp)).2.1 1 (by simp) (okDep "b" cfgFix)
    (fun j hj => by
      match j, hj with
      | 0, _ => exact ⟨"provider a offline", rfl⟩)
    rfl

-- Helper lemmas for the ProviderManager failover loop.

lemma pmFailoverGo_ok (m : PM) (config : DeploymentConfig) (prev : String) :
    ∀ (L : List Nat) (le : Option String) (t : Nat) (ht : t < L.length)
      (idx : Nat) (pt : Provider) (d : Deployment),
      (∀ u (hu : u < t), ∃ pu e, m.providers[L.get ⟨u, lt_trans hu ht⟩]? = some pu ∧
        attemptDeploy pu config = .error e) →
      L.get ⟨t, ht⟩ = idx → m.providers[idx]? = some pt →
      attemptDeploy pt config = .ok d →
      pmFailoverGo m config prev L le =
        ({ m with activeIndex := idx, currentDeployment := some d },
          some (prev, pt.name), .ok d) := by
  intro L
  induction L with
  | nil => intro le t ht; exact absurd ht (by simp)
  | cons j rest ih =>
    intro le t ht idx pt d hfails hidx hpt hok
    cases t with
    | zero =>
      simp only [List.get] at hidx
      subst hidx
      simp only [pmFailoverGo, hpt, hok]
    | succ t' =>
      obtain ⟨pu, e, hpu, he⟩ := hfails 0 (Nat.succ_pos t')
      simp only [List.get] at hpu
      have ht' : t' < rest.length := Nat.lt_of_succ_lt_succ ht
      have hrec := ih (some e) t' ht' idx pt d
        (fun u hu => by
          obtain ⟨pu', e', hpu', he'⟩ := hfails (u + 1) (Nat.succ_lt_succ hu)
          simp only [List.get] at hpu'
          exact ⟨pu', e', hpu', he'⟩)
        (by simpa using hidx) hpt hok
      simp only [pmFailoverGo, hpu, he]
      exact hrec

lemma pmFailoverGo_exhaust (m : PM) (config : DeploymentConfig) (prev : String) :
    ∀ (L : List Nat) (le : Option String),
      (∀ idx ∈ L, ∃ p e, m.providers[idx]? = some p ∧
        attemptDeploy p config = .error e) →
      ∃ msg, pmFailoverGo m config prev L le = (m, none, .error msg) := by
  intro L
  induction L with
  | nil => intro le _; exact ⟨_, rfl⟩
  | cons j rest ih =>
    intro le hall
    obtain ⟨p, e, hp, he⟩ := hall j (List.mem_cons_self j rest)
    obtain ⟨msg, hrec⟩ := ih (some e) (fun idx h => hall idx (List.mem_cons_of_mem _ h))
    refine ⟨msg, ?_⟩
    simp only [pmFailoverGo, hp, he]
    exact hrec

lemma pmFailoverGo_setDestroy (m : PM) (i : Nat) (g : Deployment → Except String Unit)
    (config : DeploymentConfig) (prev : String) :
    ∀ (L : List Nat) (le : Option String),
      ((pmFailoverGo (setDestroy m i g) config prev L le).1.activeIndex =
        (pmFailoverGo m config prev L le).1.activeIndex) ∧
      ((pmFailoverGo (setDestroy m i g) config prev L le).1.currentDeployment =
        (pmFailoverGo m config prev L le).1.currentDeployment) ∧
      ((pmFailoverGo (setDestroy m i g) config prev L le).2.1 =
        (pmFailoverGo m config prev L le).2.1) ∧
      ((pmFailoverGo (setDestroy m i g) config prev L le).2.2 =
        (pmFailoverGo m config prev L le).2.2) := by
  intro L
  induction L with
  | nil => intro le; exact ⟨rfl, rfl, rfl, rfl⟩
  | cons idx rest ih =>
    intro le
    have hmod : (setDestroy m i g).providers[idx]? =
        (fun p => if i = idx then { p with destroy := g } else p) <$> m.providers[idx]? := by
      simp only [setDestroy]
      exact List.getElem?_modify ..
    cases hp : m.providers[idx]? with
    | none =>
      have hnone : (setDestroy m i g).providers[idx]? = none := by rw [hmod, hp]; rfl
      refine ⟨?_, ?_, ?_, ?_⟩ <;> simp only [pmFailoverGo, hnone, hp] <;> rfl
    | some p =>
      have hps : (setDestroy m i g).providers[idx]? =
          some (if i = idx then { p with destroy := g } else p) := by rw [hmod, hp]; rfl
      have hdeq : (if i = idx then { p with destroy := g } else p).deploy = p.deploy := by
        split <;> rfl
      have hatt : attemptDeploy (if i = idx then { p with destroy := g } else p) config =
          attemptDeploy p config := by
        unfold attemptDeploy
        rw [hdeq]
      have hname : (if i = idx then { p with destroy := g } else p).name = p.name := by
        split <;> rfl
      simp only [pmFailoverGo, hps, hp, hatt]
      cases had : attemptDeploy p config with
      | error e => exact ih (some e)
      | ok d => refine ⟨?_, ?_, ?_, ?_⟩ <;> simp [hname]

lemma pmFailover_eq (m : PM) (cp : Provider) (dep : Deployment)
    (hcp : m.providers[m.activeIndex]? = some cp)
    (hdep : m.currentDeployment = some dep) :
    pmFailover m =
      { state := (pmFailoverGo m dep.config cp.name (failoverCandidates m) none).1
        event := (pmFailoverGo m dep.config cp.name (failoverCandidates m) none).2.1
        result := (pmFailoverGo m dep.config cp.name (failoverCandidates m) none).2.2
        destroyResult := some (cp.destroy dep) } := by
  rcases hgo : pmFailoverGo m dep.config cp.name (failoverCandidates m) none with ⟨s, ev, r⟩
  simp [pmFailover, hcp, hdep, hgo]

/-- C2: failover with a current deployment and at least two providers: the
outcome never depends on the best-effort destroy of the current deployment
(which is attempted on it); the candidate list starts directly after the
active index, wrapping, so the first candidate is never the active provider;
the first candidate whose deploy of the original config succeeds becomes
active and a failover event names the previous and new provider; if every
candidate fails, failover throws, leaving state untouched. -/
theorem c2_failover_skips_active_provider (m : PM) (dep : Deployment) (cp : Provider)
    (hdep : m.currentDeployment = some dep)
    (hcp : m.providers[m.activeIndex]? = some cp)
    (hn : 2 ≤ m.providers.length) :
    (∀ g, (pmFailover (setDestroy m m.activeIndex g)).result = (pmFailover m).result ∧
      (pmFailover (setDestroy m m.activeIndex g)).event = (pmFailover m).event ∧
      (pmFailover (setDestroy m m.activeIndex g)).state.activeIndex =
        (pmFailover m).state.activeIndex ∧
      (pmFailover (setDestroy m m.activeIndex g)).state.currentDeployment =
        (pmFailover m).state.currentDeployment ∧
      (pmFailover (setDestroy m m.activeIndex g)).destroyResult = some (g dep)) ∧
    (pmFailover m).destroyResult = some (cp.destroy dep) ∧
    (failoverCandidates m).head? = some ((m.activeIndex + 1) % m.providers.length) ∧
    (m.activeIndex + 1) % m.providers.length ≠ m.activeIndex ∧
    (∀ t (ht : t < (failoverCandidates m).length) idx pt d,
      (∀ u (hu : u < t), ∃ pu e,
        m.providers[(failoverCandidates m).get ⟨u, lt_trans hu ht⟩]? = some pu ∧
        attemptDeploy pu dep.config = .error e) →
      (failoverCandidates m).get ⟨t, ht⟩ = idx →
      m.providers[idx]? = some pt →
      attemptDeploy pt dep.config = .ok d →
      (pmFailover m).state = { m with activeIndex := idx, currentDeployment := some d } ∧
      (pmFailover m).event = some (cp.name, pt.name) ∧
      (pmFailover m).result = .ok d) ∧
    ((∀ idx ∈ failoverCandidates m, ∃ p e, m.providers[idx]? = some p ∧
        attemptDeploy p dep.config = .error e) →
      ∃ msg, (pmFailover m).state = m ∧ (pmFailover m).event = none ∧
        (pmFailover m).result = .error msg) := by
  have hai : m.activeIndex < m.providers.length := (List.getElem?_eq_some.mp hcp).1
  have hPF := pmFailover_eq m cp dep hcp hdep
  refine ⟨?_, ?_, ?_, ?_, ?_, ?_⟩
  · intro g
    have hcpg : (setDestroy m m.activeIndex g).providers[(setDestroy m m.activeIndex g).activeIndex]? =
        some { cp with destroy := g } := by
      show (setDestroy m m.activeIndex g).providers[m.activeIndex]? = _
      simp only [setDestroy]
      rw [List.getElem?_modify, hcp]
      simp
    have hdepg : (setDestroy m m.activeIndex g).currentDeployment = some dep := hdep
    have hcand : failoverCandidates (setDestroy m m.activeIndex g) = failoverCandidates m := by
      simp [failoverCandidates, failoverOffsets, setDestroy, List.length_modify]
    have hPFg := pmFailover_eq (setDestroy m m.activeIndex g) { cp with destroy := g } dep
      hcpg hdepg
    rw [hcand] at hPFg
    obtain ⟨h1, h2, h3, h4⟩ :=
      pmFailoverGo_setDestroy m m.activeIndex g dep.config cp.name (failoverCandidates m) none
    rw [hPFg, hPF]
    exact ⟨h4, h3, h1, h2, rfl⟩
  · rw [hPF]
  · have hones : m.providers.length - 1 = (m.providers.length - 2) + 1 := by omega
    rw [failoverCandidates, failoverOffsets, hones, List.range']
    rfl
  · rcases Nat.lt_or_ge (m.activeIndex + 1) m.providers.length with h1 | h1
    · rw [Nat.mod_eq_of_lt h1]; omega
    · have h2 : m.activeIndex + 1 = m.providers.length := by omega
      rw [h2, Nat.mod_self]; omega
  · intro t ht idx pt d hfails hidx hpt hok
    have hgo := pmFailoverGo_ok m dep.config cp.name (failoverCandidates m) none t ht
      idx pt d hfails hidx hpt hok
    rw [hPF, hgo]
    exact ⟨rfl, rfl, rfl⟩
  · intro hall
    obtain ⟨msg, hgo⟩ :=
      pmFailoverGo_exhaust m dep.config cp.name (failoverCandidates m) none hall
    refine ⟨msg, ?_⟩
    rw [hPF, hgo]
    exact ⟨rfl, rfl, rfl⟩

/-- C2 witness: two providers, active index 0 with a current deployment; the
single candidate is provider 1, whose success updates the index and emits
the failover event. -/
theorem c2_failover_skips_active_provider_witness :
    (pmFailover { providers := [failingProv "a", okProv "b"], activeIndex := 0
                  currentDeployment := some (okDep "a" cfgFix) }).state =
      { providers := [failingProv "a", okProv "b"], activeIndex := 1
        currentDeployment := some (okDep "b" cfgFix) } ∧
    (pmFailover { providers := [failingProv "a", okProv "b"], activeIndex := 0
                  currentDeployment := some (okDep "a" cfgFix) }).event =
      some ("a", "b") ∧
    (pmFailover { providers := [failingProv "a", okProv "b"], activeIndex := 0
                  currentDeployment := some (okDep "a" cfgFix) }).result =
      .ok (okDep "b" cfgFix) :=
  (c2_failover_skips_active_provider
    { providers := [failingProv "a", okProv "b"], activeIndex := 0
      currentDeployment := some (okDep "a" cfgFix) }
    (okDep "a" cfgFix) (failingProv "a") rfl rfl (by simp)).2.2.2.2.1
    0 (by simp [failoverCandidates, failoverOffsets]) 1 (okProv "b") (okDep "b" cfgFix)
    (fun u hu => absurd hu (Nat.not_lt_zero u)) rfl rfl rfl

/-- C3: waitForBids selection: for every non-empty bid list the selected bid
has minimum price, and it is the first-enumerated bid attaining that price
(the JS sort is stable), so the selection is a deterministic function of the
list. -/
theorem c3_cheapest_bid_selection (l : List Bid) (hne : l ≠ []) :
    ∃ w, selectBid l = some w ∧ w ∈ l ∧ (∀ b ∈ l, w.price ≤ b.price) ∧
      l.find? (fun b => b.price == w.price) = some w := by
  induction l with
  | nil => exact absurd rfl hne
  | cons x xs ih =>
    cases xs with
    | nil =>
      refine ⟨x, rfl, List.mem_singleton.mpr rfl, ?_, ?_⟩
      · intro b hb
        rw [List.mem_singleton] at hb
        rw [hb]
      · simp [List.find?]
    | cons y ys =>
      obtain ⟨w, hsel, hmem, hmin, hfind⟩ := ih (by simp)
      unfold selectBid at hsel ⊢
      cases hs : sortBids (y :: ys) with
      | nil => rw [hs] at hsel; simp at hsel
      | cons a rest =>
        rw [hs] at hsel
        simp only [List.head?_cons, Option.some.injEq] at hsel
        subst hsel
        have hsort : sortBids (x :: y :: ys) = insertBid x (a :: rest) := by
          rw [show sortBids (x :: y :: ys) = insertBid x (sortBids (y :: ys)) from rfl, hs]
        by_cases hle : x.price ≤ a.price
        · refine ⟨x, ?_, List.mem_cons_self x _, ?_, ?_⟩
          · rw [hsort]
            simp [insertBid, hle]
          · intro b hb
            rcases List.mem_cons.mp hb with hb | hb
            · rw [hb]
            · exact le_trans hle (hmin b hb)
          · simp [List.find?]
        · refine ⟨a, ?_, List.mem_cons_of_mem x hmem, ?_, ?_⟩
          · rw [hsort]
            simp [insertBid, hle]
          · intro b hb
            rcases List.mem_cons.mp hb with hb | hb
            · rw [hb]
              exact Nat.le_of_lt (Nat.lt_of_not_le hle)
            · exact hmin b hb
          · have hxne : (x.price == a.price) = false := by
              have : x.price ≠ a.price :=
                Nat.ne_of_gt (Nat.lt_of_not_le hle)
              simp [this]
            simp only [List.find?_cons, hxne, cond_false]
            exact hfind

/-- C3 witness: the theorem applied to a concrete three-bid list with a tied
minimum price. -/
theorem c3_cheapest_bid_selection_witness :
    ([bidFix 5 "pa", bidFix 3 "pb", bidFix 3 "pc"] ≠ []) ∧
    ∃ w, selectBid [bidFix 5 "pa", bidFix 3 "pb", bidFix 3 "pc"] = some w ∧
      w ∈ [bidFix 5 "pa", bidFix 3 "pb", bidFix 3 "pc"] ∧
      (∀ b ∈ [bidFix 5 "pa", bidFix 3 "pb", bidFix 3 "pc"], w.price ≤ b.price) ∧
      List.find? (fun b => b.price == w.price)
        [bidFix 5 "pa", bidFix 3 "pb", bidFix 3 "pc"] = some w :=
  ⟨by decide, c3_cheapest_bid_selection [bidFix 5 "pa", bidFix 3 "pb", bidFix 3 "pc"] (by decide)⟩

lemma methodOracle_missing {α : Type} (name : String) (impl : Except String α)
    (h : ¬ name ∈ providerManagerMethods) :
    methodOracle providerManagerMethods name impl =
      .error ("providerManager." ++ name ++ " is not a function") := by
  simp [methodOracle, h]

/-- C5 counterexample: heal wired to the real ProviderManager does not
throw: the TypeErrors from the missing methods are caught inside heal, no
deploy is attempted, and heal completes by sending the attempt-failed
notification (so the invocation does not reject). -/
theorem c5_heal_catches_type_errors :
    heal (wiredHealDeps (.ok none) (.ok none) (.ok []) (.ok ()) 5) 0 =
      { retryCount := 1, deployAttempts := 0
        notifs := [("Self-heal attempt 1/5 failed on all providers.", .high)] } ∧
    (heal (wiredHealDeps (.ok none) (.ok none) (.ok []) (.ok ()) 5) 0).notifs ≠ [] := by
  constructor
  · decide
  · decide

/-- C5 amended: wired to the ProviderManager class (which defines neither
getPrimaryProvider, getActiveDeployment, getLastDeploymentConfig nor
getAllProviders), the health tick and funding tick reject with a TypeError
before any probe or balance read, whatever the methods would have returned;
heal catches the TypeErrors, performs zero deploy attempts and completes
with the attempt-failed notification instead of throwing. -/
theorem c5_missing_manager_methods :
    (∀ (primaryImpl : Except String (Option HMProvider))
       (activeImpl : Except String (Option Deployment)) (maxFailures failures : Nat),
      healthTick (wiredHealthDeps primaryImpl activeImpl maxFailures) failures =
        { result := .error "providerManager.getPrimaryProvider is not a function"
          probes := 0, failures := failures, healCalls := 0 }) ∧
    (∀ (primaryImpl : Except String (Option FundProvider)) (threshold : Int),
      fundingTick (wiredFundingDeps primaryImpl threshold) =
        { result := .error "providerManager.getPrimaryProvider is not a function"
          balanceReads := 0, notifs := [] }) ∧
    (∀ (pI : Except String (Option Provider))
       (cI : Except String (Option DeploymentConfig))
       (aI : Except String (List Provider)) (sO : Except String Unit)
       (maxR rc : Nat), rc < maxR →
      heal (wiredHealDeps pI cI aI sO maxR) rc =
        { retryCount := rc + 1, deployAttempts := 0
          notifs := [(attemptFailedMsg (rc + 1) maxR, .high)] }) := by
  refine ⟨?_, ?_, ?_⟩
  · intro pI aI mf f
    have h : (wiredHealthDeps pI aI mf).getPrimaryProvider =
        .error "providerManager.getPrimaryProvider is not a function" :=
      methodOracle_missing "getPrimaryProvider" pI (by decide)
    simp [healthTick, h]
  · intro pI th
    have h : (wiredFundingDeps pI th).getPrimaryProvider =
        .error "providerManager.getPrimaryProvider is not a function" :=
      methodOracle_missing "getPrimaryProvider" pI (by decide)
    simp [fundingTick, h]
  · intro pI cI aI sO maxR rc hrc
    have hp : (wiredHealDeps pI cI aI sO maxR).getPrimaryProvider =
        .error "providerManager.getPrimaryProvider is not a function" :=
      methodOracle_missing "getPrimaryProvider" pI (by decide)
    have ha : (wiredHealDeps pI cI aI sO maxR).getAllProviders =
        .error "providerManager.getAllProviders is not a function" :=
      methodOracle_missing "getAllProviders" aI (by decide)
    have hnotge : ¬ (rc ≥ (wiredHealDeps pI cI aI sO maxR).maxRetries) :=
      Nat.not_le.mpr hrc
    simp only [heal, hp, if_neg hnotge, healStep2, ha]
    rfl

/-- C5 amended witness: the missing-method theorem for heal at retry count 0
with max 5 (the createHeartbeat default). -/
theorem c5_missing_manager_methods_witness :
    heal (wiredHealDeps (.ok none) (.ok none) (.ok []) (.ok ()) 5) 0 =
      { retryCount := 1, deployAttempts := 0
        notifs := [(attemptFailedMsg 1 5, .high)] } :=
  c5_missing_manager_methods.2.2 (.ok none) (.ok none) (.ok []) (.ok ()) 5 0 (by decide)

-- Helper lemmas for the self-healer retry budget.

lemma attemptFailedMsg_ne_exhaustedMsg (rc maxRetries : Nat) :
    attemptFailedMsg rc maxRetries ≠ exhaustedMsg maxRetries := by
  intro h
  have hd := congrArg String.data h
  simp only [attemptFailedMsg, exhaustedMsg, String.data_append, List.append_assoc] at hd
  have h10 := congrArg (fun l => l[10]?) hd
  simp only at h10
  rw [List.getElem?_append_left (by decide), List.getElem?_append_left (by decide)] at h10
  simp at h10

lemma countExhausted_cons (maxRetries : Nat) (o : HealOut) (outs : List HealOut) :
    countExhausted maxRetries (o :: outs) =
      (o.notifs.filter (fun nf => nf.1 == exhaustedMsg maxRetries)).length +
        countExhausted maxRetries outs := by
  simp [countExhausted]

lemma countExhausted_append (maxRetries : Nat) (a b : List HealOut) :
    countExhausted maxRetries (a ++ b) =
      countExhausted maxRetries a + countExhausted maxRetries b := by
  simp [countExhausted]

lemma healLoop_none (deps : HealDeps) :
    ∀ (ps : List Provider), (∀ p ∈ ps, ∀ c, ∃ e, p.deploy c = .error e) →
      (healLoop deps ps).1 = none := by
  intro ps
  induction ps with
  | nil => intro _; rfl
  | cons p rest ih =>
    intro h
    have hrest := ih (fun q hq c => h q (List.mem_cons_of_mem _ hq) c)
    cases hc : deps.getLastDeploymentConfig with
    | error e => simp only [healLoop, hc]; exact hrest
    | ok co =>
      cases co with
      | none => simp only [healLoop, hc]; exact hrest
      | some config =>
        obtain ⟨e, he⟩ := h p (List.mem_cons_self p rest) config
        simp only [healLoop, hc, he]
        exact hrest

lemma healStep2_fail (deps : HealDeps) (rc a : Nat)
    (hallp : ∀ ps p, deps.getAllProviders = .ok ps → p ∈ ps →
      ∀ c, ∃ e, p.deploy c = .error e) :
    ∃ n, healStep2 deps rc a =
      { retryCount := rc, deployAttempts := n
        notifs := [(attemptFailedMsg rc deps.maxRetries, .high)] } := by
  cases ha : deps.getAllProviders with
  | error e => exact ⟨a, by simp [healStep2, ha]⟩
  | ok ps =>
    have hl := healLoop_none deps ps (fun p hp c => hallp ps p ha hp c)
    rcases hlp : healLoop deps ps with ⟨r1, n⟩
    rw [hlp] at hl
    simp only at hl
    subst hl
    exact ⟨a + n, by simp [healStep2, ha, hlp]⟩

lemma heal_fail (deps : HealDeps) (rc : Nat) (hrc : rc < deps.maxRetries)
    (hprim : ∀ p, deps.getPrimaryProvider = .ok (some p) →
      ∀ c, ∃ e, p.deploy c = .error e)
    (hallp : ∀ ps p, deps.getAllProviders = .ok ps → p ∈ ps →
      ∀ c, ∃ e, p.deploy c = .error e) :
    ∃ n, heal deps rc =
      { retryCount := rc + 1, deployAttempts := n
        notifs := [(attemptFailedMsg (rc + 1) deps.maxRetries, .high)] } := by
  have hnotge : ¬ (rc ≥ deps.maxRetries) := Nat.not_le.mpr hrc
  cases hp : deps.getPrimaryProvider with
  | error e =>
    obtain ⟨n, h2⟩ := healStep2_fail deps (rc + 1) 0 hallp
    exact ⟨n, by simp only [heal, hp, if_neg hnotge]; exact h2⟩
  | ok po =>
    cases po with
    | none =>
      obtain ⟨n, h2⟩ := healStep2_fail deps (rc + 1) 0 hallp
      exact ⟨n, by simp only [heal, hp, if_neg hnotge]; exact h2⟩
    | some p =>
      cases hc : deps.getLastDeploymentConfig with
      | error e =>
        obtain ⟨n, h2⟩ := healStep2_fail deps (rc + 1) 0 hallp
        exact ⟨n, by simp only [heal, hp, hc, if_neg hnotge]; exact h2⟩
      | ok co =>
        cases co with
        | none =>
          obtain ⟨n, h2⟩ := healStep2_fail deps (rc + 1) 0 hallp
          exact ⟨n, by simp only [heal, hp, hc, if_neg hnotge]; exact h2⟩
        | some config =>
          obtain ⟨e, he⟩ := hprim p hp config
          obtain ⟨n, h2⟩ := healStep2_fail deps (rc + 1) 1 hallp
          exact ⟨n, by simp only [heal, hp, hc, he, if_neg hnotge]; exact h2⟩

lemma healRun_all_fail (deps : HealDeps)
    (hprim : ∀ p, deps.getPrimaryProvider = .ok (some p) →
      ∀ c, ∃ e, p.deploy c = .error e)
    (hallp : ∀ ps p, deps.getAllProviders = .ok ps → p ∈ ps →
      ∀ c, ∃ e, p.deploy c = .error e) :
    ∀ (k r : Nat), r + k = deps.maxRetries →
      ∃ outs₀, healRun deps r (k + 1) =
          outs₀ ++ [{ retryCount := deps.maxRetries, deployAttempts := 0
                      notifs := [(exhaustedMsg deps.maxRetries, .high)] }] ∧
        countExhausted deps.maxRetries outs₀ = 0 := by
  intro k
  induction k with
  | zero =>
    intro r hr
    have hr0 : r = deps.maxRetries := by omega
    subst hr0
    refine ⟨[], ?_, rfl⟩
    simp [healRun, heal]
  | succ k ih =>
    intro r hr
    have hrlt : r < deps.maxRetries := by omega
    obtain ⟨n, hout⟩ := heal_fail deps r hrlt hprim hallp
    obtain ⟨outs₀, hrun, hcount⟩ := ih (r + 1) (by omega)
    refine ⟨heal deps r :: outs₀, ?_, ?_⟩
    · show heal deps r :: healRun deps (heal deps r).retryCount (k + 1) = _
      rw [hout]
      simp only
      rw [hrun]
      simp
    · rw [countExhausted_cons, hcount, hout]
      have hne : ((attemptFailedMsg (r + 1) deps.maxRetries ==
          exhaustedMsg deps.maxRetries) : Bool) = false :=
        beq_eq_false_iff_ne.mpr (attemptFailedMsg_ne_exhaustedMsg (r + 1) deps.maxRetries)
      simp [List.filter, hne]

/-- C6: once the retry count reaches maxRetries, each heal() performs zero
deploy attempts, sends exactly one exhaustion notification and leaves the
retry count unchanged; with every provider always failing, max+1 successive
heal() calls produce exactly one exhaustion notification in total, on the
last call, which performs zero deploy attempts. -/
theorem c6_self_heal_gives_up_after_max (deps : HealDeps)
    (hprim : ∀ p, deps.getPrimaryProvider = .ok (some p) →
      ∀ c, ∃ e, p.deploy c = .error e)
    (hallp : ∀ ps p, deps.getAllProviders = .ok ps → p ∈ ps →
      ∀ c, ∃ e, p.deploy c = .error e) :
    (∀ rc, deps.maxRetries ≤ rc →
      heal deps rc =
        { retryCount := rc, deployAttempts := 0
          notifs := [(exhaustedMsg deps.maxRetries, .high)] }) ∧
    (∃ outs₀,
      healRun deps 0 (deps.maxRetries + 1) =
        outs₀ ++ [{ retryCount := deps.maxRetries, deployAttempts := 0
                    notifs := [(exhaustedMsg deps.maxRetries, .high)] }] ∧
      countExhausted deps.maxRetries outs₀ = 0 ∧
      countExhausted deps.maxRetries (healRun deps 0 (deps.maxRetries + 1)) = 1) := by
  constructor
  · intro rc hrc
    simp [heal, ge_iff_le, hrc]
  · obtain ⟨outs₀, hrun, hcount⟩ := healRun_all_fail deps hprim hallp deps.maxRetries 0 (by omega)
    refine ⟨outs₀, hrun, hcount, ?_⟩
    rw [hrun, countExhausted_append, hcount]
    simp [countExhausted, List.filter]

/-- C6 witness: two always-failing providers with max 2 retries; at retry
count 3 the healer only sends the exhaustion notification, attempting no
deploy and leaving the count at 3. -/
theorem c6_self_heal_gives_up_after_max_witness :
    heal healDepsFix 3 =
      { retryCount := 3, deployAttempts := 0
        notifs := [(exhaustedMsg healDepsFix.maxRetries, .high)] } :=
  (c6_self_heal_gives_up_after_max healDepsFix
    (fun p hp c => by
      injection hp with h1
      injection h1 with h2
      rw [← h2]
      exact ⟨"provider a offline", rfl⟩)
    (fun ps p hps hp c => by
      injection hps with h1
      subst h1
      rcases List.mem_cons.mp hp with rfl | hp
      · exact ⟨"provider a offline", rfl⟩
      · rcases List.mem_cons.mp hp with rfl | hp
        · exact ⟨"provider b offline", rfl⟩
        · exact absurd hp (List.not_mem_nil p))).1 3 (by decide)

lemma waitForBidsModel_none :
    ∀ (polls : List (Except String (List RawBid))),
      (∀ p ∈ polls, fetchBidsModel p = []) → waitForBidsModel polls = none := by
  intro polls
  induction polls with
  | nil => intro _; rfl
  | cons p rest ih =>
    intro h
    have hp : fetchBidsModel p = [] := h p (List.mem_cons_self p rest)
    simp only [waitForBidsModel, hp, List.isEmpty_nil, if_pos]
    exact ih (fun q hq => h q (List.mem_cons_of_mem _ hq))

/-- C4: when the creation transaction succeeds but no poll inside the bid
window yields an open bid, deploy does not throw: it returns a deployment
with status failed and the timeout message under the error metadata key; a
bid-poll network error is absorbed into an empty bid list. -/
theorem c4_no_bids_yields_failed_status (env : AkashEnv) (config : DeploymentConfig)
    (txHash : String)
    (hcreate : env.broadcast
      [buildCreateDeploymentMsg env.address (toString env.nowMs) (generateSDL config)]
      defaultFee = .ok txHash)
    (hpolls : ∀ p ∈ env.polls, fetchBidsModel p = []) :
    (∀ e, fetchBidsModel (.error e) = []) ∧
    ∃ d, akashDeploy env config = .ok d ∧ d.status = .failed ∧
      mdLookup d.metadata "error" = some "No bids received within timeout" := by
  refine ⟨fun e => rfl, ?_⟩
  have hwait := waitForBidsModel_none env.polls hpolls
  simp only [akashDeploy, hcreate, hwait]
  refine ⟨_, rfl, rfl, ?_⟩
  simp [mdLookup, List.find?]

/-- C4 witness: an environment whose two polls are a network error and an
empty response; deploy returns the failed deployment. -/
theorem c4_no_bids_yields_failed_status_witness :
    (∀ e, fetchBidsModel (.error e) = []) ∧
    ∃ d, akashDeploy
        { address := "akash1owner", nowMs := 100, broadcast := fun _ _ => .ok "TX"
          polls := [.error "net down", .ok []], manifestPush := .ok () } cfgFix = .ok d ∧
      d.status = .failed ∧
      mdLookup d.metadata "error" = some "No bids received within timeout" :=
  c4_no_bids_yields_failed_status
    { address := "akash1owner", nowMs := 100, broadcast := fun _ _ => .ok "TX"
      polls := [.error "net down", .ok []], manifestPush := .ok () }
    cfgFix "TX" rfl
    (fun p hp => by
      rcases List.mem_cons.mp hp with rfl | hp
      · rfl
      · rcases List.mem_cons.mp hp with rfl | hp
        · rfl
        · exact absurd hp (List.not_mem_nil p))

/-- C10: notifier rate limiting: a low call within 5 minutes of the last
accepted low call is suppressed, a normal call within 1 minute of the last
accepted normal call is suppressed, a high call is never suppressed; two low
calls 1 second apart (the first accepted) deliver exactly once, two high
calls 1 second apart deliver twice. -/
theorem c10_notifier_rate_limits (s : NotifierState) (tl tn t0 : Nat)
    (hl : tl - s.lastLow < lowCooldownMs)
    (hn : tn - s.lastNormal < normalCooldownMs)
    (h0 : lowCooldownMs ≤ t0) :
    notifyStep s tl .low = (s, false) ∧
    notifyStep s tn .normal = (s, false) ∧
    (∀ (s' : NotifierState) (t : Nat), (notifyStep s' t .high).2 = true) ∧
    (notifyRun initNotifierState [(t0, .low), (t0 + 1000, .low)]).2 = 1 ∧
    (notifyRun initNotifierState [(t0, .high), (t0 + 1000, .high)]).2 = 2 := by
  refine ⟨?_, ?_, fun s' t => rfl, ?_, rfl⟩
  · simp [notifyStep, hl]
  · simp [notifyStep, hn]
  · have h1 : ¬ (t0 - initNotifierState.lastLow < lowCooldownMs) := by
      simp only [initNotifierState, Nat.sub_zero]
      omega
    have h2 : (1000 : Nat) < lowCooldownMs := by decide
    simp [notifyRun, notifyStep, h1, h2]

/-- C10 witness: the rate-limit theorem at the initial state (both gate
hypotheses hold right after the epoch) and first call at the 5-minute
mark. -/
theorem c10_notifier_rate_limits_witness :
    notifyStep initNotifierState 1000 .low = (initNotifierState, false) ∧
    notifyStep initNotifierState 2000 .normal = (initNotifierState, false) ∧
    (∀ (s' : NotifierState) (t : Nat), (notifyStep s' t .high).2 = true) ∧
    (notifyRun initNotifierState [(300000, .low), (300000 + 1000, .low)]).2 = 1 ∧
    (notifyRun initNotifierState [(300000, .high), (300000 + 1000, .high)]).2 = 2 :=
  c10_notifier_rate_limits initNotifierState 1000 2000 300000
    (by decide) (by decide) (by decide)

/-- C9: the version field of the deployment-creation message is the constant
32-zero-byte placeholder: it does not depend on the rendered manifest, so two
configs with different manifests get the same version identifier. -/
theorem c9_version_is_constant_placeholder :
    (∀ owner dseq sdl, msgVersion (buildCreateDeploymentMsg owner dseq sdl) =
      some (List.replicate 32 0)) ∧
    msgVersion (buildCreateDeploymentMsg "akash1owner" "100" (generateSDL cfgFix)) =
      msgVersion (buildCreateDeploymentMsg "akash1owner" "100" (generateSDL cfgFix2)) ∧
    generateSDL cfgFix ≠ generateSDL cfgFix2 :=
  ⟨fun _ _ _ => rfl, rfl, by decide⟩

/-- C7 counterexample: with a broadcast oracle that rejects the lease-close
transaction, destroy raises that error and the deployment-close transaction
is never broadcast — the lease-close error is not swallowed. -/
theorem c7_lease_close_error_propagates :
    akashDestroy leaseCloseFails "akash1owner" akashDepFix =
      ([[AkashMsg.closeLease "akash1owner" "100" "1" "1" "akash1prov"]],
        .error "lease close rejected") ∧
    [buildCloseDeploymentMsg "akash1owner" "100"] ∉
      (akashDestroy leaseCloseFails "akash1owner" akashDepFix).1 := by
  refine ⟨rfl, ?_⟩
  decide

/-- C7 amended: destroy requires dseq in metadata; when a provider address is
recorded it first broadcasts the lease close, and an error there propagates,
preventing the deployment close; when the lease close succeeds the deployment
close is broadcast and its outcome decides the call. -/
theorem c7_destroy_sequence (broadcast : List AkashMsg → Fee → Except String String)
    (address : String) (d : Deployment) (dseq pa : String)
    (hd : mdLookup d.metadata "dseq" = some dseq) (hdne : dseq ≠ "")
    (hpa : mdLookup d.metadata "providerAddress" = some pa) (hpane : pa ≠ "") :
    (∀ e, broadcast [buildCloseLeaseMsg address dseq pa
          ((mdLookup d.metadata "gseq").getD "1") ((mdLookup d.metadata "oseq").getD "1")]
        defaultFee = .error e →
      akashDestroy broadcast address d =
        ([[buildCloseLeaseMsg address dseq pa
            ((mdLookup d.metadata "gseq").getD "1") ((mdLookup d.metadata "oseq").getD "1")]],
         .error e)) ∧
    (∀ h1, broadcast [buildCloseLeaseMsg address dseq pa
          ((mdLookup d.metadata "gseq").getD "1") ((mdLookup d.metadata "oseq").getD "1")]
        defaultFee = .ok h1 →
      akashDestroy broadcast address d =
        ([[buildCloseLeaseMsg address dseq pa
            ((mdLookup d.metadata "gseq").getD "1") ((mdLookup d.metadata "oseq").getD "1")],
          [buildCloseDeploymentMsg address dseq]],
         (broadcast [buildCloseDeploymentMsg address dseq] defaultFee).map (fun _ => ()))) := by
  constructor
  · intro e hbe
    simp only [akashDestroy, hd, hpa, if_neg hdne, if_neg hpane, hbe]
  · intro h1 hbo
    simp only [akashDestroy, hd, hpa, if_neg hdne, if_neg hpane, hbo]
    cases hcd : broadcast [buildCloseDeploymentMsg address dseq] defaultFee <;> rfl

/-- C7 amended witness: the sequence theorem applied to the fixture
deployment and the rejecting broadcast oracle. -/
theorem c7_destroy_sequence_witness :
    akashDestroy leaseCloseFails "akash1owner" akashDepFix =
      ([[buildCloseLeaseMsg "akash1owner" "100" "akash1prov" "1" "1"]],
        .error "lease close rejected") :=
  (c7_destroy_sequence leaseCloseFails "akash1owner" akashDepFix "100" "akash1prov"
    (by decide) (by decide) (by decide) (by decide)).1 "lease close rejected" (by rfl)

/-- C8 counterexample: on a host where the named container is already absent
the stop-and-remove command exits nonzero, so destroy raises instead of
being a no-op. -/
theorem c8_destroy_raises_on_absent_container :
    selfHostedDestroy absentContainerExec selfHostedDepFix =
      .error "SSH command exited with code 1: Error: No such container" := by
  rfl

/-- C8 amended: destroy is a no-op only when metadata lacks a container
name; otherwise it runs the stop-and-remove command and propagates the exec
outcome unchanged — in particular it raises when the remote command fails,
as it does for an absent container. -/
theorem c8_destroy_propagates_exec (execO : String → Except String String)
    (d : Deployment) (n : String)
    (h : mdLookup d.metadata "containerName" = some n) (hne : n ≠ "") :
    selfHostedDestroy execO d =
      (execO ("docker stop " ++ n ++ " && docker rm " ++ n)).map (fun _ => ()) ∧
    (∀ d', mdLookup d'.metadata "containerName" = none →
      selfHostedDestroy execO d' = .ok ()) := by
  constructor
  · simp only [selfHostedDestroy, h, if_neg hne]
  · intro d' h'
    simp only [selfHostedDestroy, h']

/-- C8 amended witness: the propagation theorem at the fixture deployment
and the absent-container host. -/
theorem c8_destroy_propagates_exec_witness :
    selfHostedDestroy absentContainerExec selfHostedDepFix =
      (absentContainerExec
        ("docker stop " ++ "hydraa-agent-1" ++ " && docker rm " ++ "hydraa-agent-1")).map
        (fun _ => ()) :=
  (c8_destroy_propagates_exec absentContainerExec selfHostedDepFix "hydraa-agent-1"
    (by decide) (by decide)).1

end Hydraa
